import Mathlib

/-!
# Load-test and performance-test preference handlers

A shallow embedding of `handlers/load_test_preferences_handler.go`.

Each handler is a function from an execution state to an execution state.
The state carries the `http.ResponseWriter`, the `*models.Preference` the
handler may assign to, the state of the storage provider, and the sequence of
provider calls made so far.  Everything the handlers import from other
packages (`strconv`, `time`, `jsonpb`, `protojson`, `encoding/json`, the
`models` constants and validator, the `models.Provider` interface) is a
parameter of the embedding, so every theorem holds for all implementations of
those collaborators.  `logrus` logging has no effect on the response, the
preference object or the provider and is left out.
-/

namespace Handlers

/-! ## net/http -/

/-- Go `error` values are represented by their message, `none` being `nil`. -/
abbrev GoError := Option String

/-- The part of `*http.Request` the handlers read: the method, the parsed form
values behind `req.FormValue`, the URL query behind `req.URL.Query()`, and the
outcome of reading `req.Body` to its end. -/
structure Request where
  Method : String
  Form : List (String × String)
  Query : List (String × String)
  Body : Except String String

/-- First value stored under `key`, or the empty string when there is none. -/
def firstValue (key : String) : List (String × String) → String
  | [] => ""
  | (k, v) :: rest => if k = key then v else firstValue key rest

/-- Go `req.FormValue(key)`. -/
def Request.FormValue (req : Request) (key : String) : String :=
  firstValue key req.Form

/-- Go `req.URL.Query().Get(key)`. -/
def Request.QueryGet (req : Request) (key : String) : String :=
  firstValue key req.Query

def MethodPost : String := "POST"
def StatusOK : Nat := 200
def StatusBadRequest : Nat := 400
def StatusNotFound : Nat := 404
def StatusInternalServerError : Nat := 500

/-- Observable state of an `http.ResponseWriter`: the status code once the
header has been written, and the bytes of the body written so far. -/
structure ResponseWriter where
  status : Option Nat
  body : String
deriving DecidableEq, Repr

/-- A response writer nothing has been written to. -/
def ResponseWriter.fresh : ResponseWriter := { status := none, body := "" }

/-- Go `w.WriteHeader(code)`: the first call fixes the status, later ones are
ignored. -/
def ResponseWriter.WriteHeader (w : ResponseWriter) (code : Nat) : ResponseWriter :=
  match w.status with
  | none => { w with status := some code }
  | some _ => w

/-- Go `w.Write(b)`: writes the header with status 200 when none was written,
then appends `b` to the body. -/
def ResponseWriter.Write (w : ResponseWriter) (b : String) : ResponseWriter :=
  { status := (w.WriteHeader StatusOK).status, body := w.body ++ b }

/-- Go `http.Error(w, msg, code)`: writes the header with `code` and the
message followed by a newline. -/
def httpError (w : ResponseWriter) (msg : String) (code : Nat) : ResponseWriter :=
  (w.WriteHeader code).Write (msg ++ "\n")

/-- Status the client receives once the handler has returned: the server
sends 200 when the handler never wrote a header. -/
def ResponseWriter.finalStatus (w : ResponseWriter) : Nat :=
  w.status.getD StatusOK

/-! ## models -/

/-- Go `models.LoadTestPreferences`. -/
structure LoadTestPreferences where
  ConcurrentRequests : Int
  Duration : String
  QueriesPerSecond : Int
  LoadGenerator : String
deriving DecidableEq, Repr

/-- Go `models.Preference`: the `LoadTestPreferences` pointer the handler
assigns, and the remaining fields, which the handlers never touch. -/
structure Preference (ρ : Type) where
  LoadTestPreferences : Option LoadTestPreferences
  others : ρ
deriving DecidableEq, Repr

/-- Go `models.User`, of which only `UserID` is read. -/
structure User where
  UserID : String
deriving DecidableEq, Repr

/-- A call made on the `models.Provider`, with the arguments other than the
request. -/
inductive ProviderCall (Cfg ρ : Type) where
  | RecordPreferences (userID : String) (pref : Preference ρ)
  | SMPSTestConfigStore (perfTest : Cfg)
  | SMPSTestConfigFetchAll
  | SMPSTestConfigFetch (testUUID : String)
  | SMPSTestConfigDelete (testUUID : String)
deriving DecidableEq, Repr

/-- The methods of `models.Provider` the handlers call.  `σ` is the state of
the provider (its storage); each method returns the next state with its Go
results.  `Cfg` stands for `SMPS.PerformanceTestConfig`, a `nil` pointer to one
being `none`.  The provider receives the preference by value: it does not
assign to the caller's `prefObj`. -/
structure Provider (σ Cfg ρ : Type) where
  RecordPreferences : σ → Request → String → Preference ρ → σ × GoError
  SMPSTestConfigStore : σ → Request → Cfg → σ × Except String String
  SMPSTestConfigFetchAll : σ → Request → σ × Except String (List (Option Cfg))
  SMPSTestConfigFetch : σ → Request → String → σ × Except String (Option Cfg)
  SMPSTestConfigDelete : σ → Request → String → σ × GoError

/-- The pure functions and constants the handlers use from other packages. -/
structure Lib (Cfg : Type) where
  /-- Go `strconv.Atoi`. -/
  Atoi : String → Except String Int
  /-- Go `time.ParseDuration`, the duration in nanoseconds. -/
  ParseDuration : String → Except String Int
  /-- Go `models.FortioLG.Name()`. -/
  FortioLGName : String
  /-- Go `models.Wrk2LG.Name()`. -/
  Wrk2LGName : String
  /-- Go `protojson.Unmarshal` into a fresh `PerformanceTestConfig`. -/
  Unmarshal : String → Except String Cfg
  /-- Go `models.SMPSPerformanceTestConfigValidator`. -/
  SMPSPerformanceTestConfigValidator : Cfg → GoError
  /-- Go `jsonpb.Marshaler{EmitDefaults: true}.MarshalToString`. -/
  MarshalToString : Option Cfg → Except String String
  /-- Go `jsonpb.Marshaler{EmitDefaults: true}.Marshal(w, m)` on a non-nil
  message: the bytes it writes to `w` and the error it returns. -/
  Marshal : Cfg → String × GoError
  /-- The check and compaction `encoding/json` applies to the bytes a
  `MarshalJSON` method returns. -/
  compact : String → Except String String

/-- Execution state threaded through a handler. -/
structure Exec (σ Cfg ρ : Type) where
  w : ResponseWriter
  prefObj : Preference ρ
  provider : σ
  calls : List (ProviderCall Cfg ρ)

variable {σ Cfg ρ : Type}

/-! ## The handlers -/

/-- Go `Handler.LoadTestPrefencesHandler`. -/
def LoadTestPrefencesHandler (lib : Lib Cfg) (provider : Provider σ Cfg ρ)
    (req : Request) (user : User) (s : Exec σ Cfg ρ) : Exec σ Cfg ρ :=
  if req.Method ≠ MethodPost then
    { s with w := s.w.WriteHeader StatusNotFound }
  else
    let q := req.FormValue "qps"
    match lib.Atoi q with
    | .error _ =>
      { s with w := httpError s.w "please provide a valid value for qps" StatusBadRequest }
    | .ok qps =>
      if qps < 0 then
        { s with w := httpError s.w "please provide a valid value for qps" StatusBadRequest }
      else
        let dur := req.FormValue "t"
        match lib.ParseDuration dur with
        | .error _ =>
          { s with w := httpError s.w "please provide a valid value for t" StatusBadRequest }
        | .ok _ =>
          let cu := req.FormValue "c"
          match lib.Atoi cu with
          | .error _ =>
            { s with w := httpError s.w "please provide a valid value for c" StatusBadRequest }
          | .ok c =>
            if c < 0 then
              { s with w := httpError s.w "please provide a valid value for c" StatusBadRequest }
            else
              let gen := req.FormValue "gen"
              let genTrack := [lib.FortioLGName, lib.Wrk2LGName].foldl
                (fun genTrack lgName => if lgName = gen then true else genTrack) false
              if !genTrack then
                { s with
                  w := httpError s.w "please provide a valid value for gen (load generator)"
                    StatusBadRequest }
              else
                let prefObj : Preference ρ :=
                  { s.prefObj with
                    LoadTestPreferences := some
                      { ConcurrentRequests := c
                        Duration := dur
                        QueriesPerSecond := qps
                        LoadGenerator := gen } }
                let r := provider.RecordPreferences s.provider req user.UserID prefObj
                let s1 : Exec σ Cfg ρ :=
                  { s with
                    prefObj := prefObj
                    provider := r.1
                    calls := s.calls ++ [ProviderCall.RecordPreferences user.UserID prefObj] }
                match r.2 with
                | some _ =>
                  { s1 with
                    w := httpError s1.w "unable to save user preferences"
                      StatusInternalServerError }
                | none => { s1 with w := s1.w.Write "\x7b\x7d" }

/-- Go `custTestConf`: a wrapper around a `*SMPS.PerformanceTestConfig`. -/
structure custTestConf (Cfg : Type) where
  Val : Option Cfg

/-- Go `custTestConf.MarshalJSON`. -/
def custTestConf.MarshalJSON (lib : Lib Cfg) (c : custTestConf Cfg) : Except String String :=
  lib.MarshalToString c.Val

/-- Text of a JSON array whose elements have the given texts. -/
def jsonArray (elems : List String) : String :=
  "[" ++ ",".intercalate elems ++ "]"

/-- Go `encoding/json` on one element of the slice, a non-nil `*custTestConf`:
the bytes its `MarshalJSON` returns are checked and compacted, and an error of
either step is the error of the encoding. -/
def marshalerEncoder (lib : Lib Cfg) (c : custTestConf Cfg) : Except String String :=
  match c.MarshalJSON lib with
  | .error e => .error e
  | .ok b => lib.compact b

/-- Go `encoding/json` on the elements of the slice, in order; the first
failure aborts the encoding. -/
def encodeElems (lib : Lib Cfg) : List (custTestConf Cfg) → Except String (List String)
  | [] => .ok []
  | c :: rest =>
    match marshalerEncoder lib c with
    | .error e => .error e
    | .ok b =>
      match encodeElems lib rest with
      | .error e => .error e
      | .ok bs => .ok (b :: bs)

/-- Go `json.Marshal(&custTestObjs)` for `custTestObjs []*custTestConf`: a
slice without elements, which is never the nil slice here, is encoded as an
empty array. -/
def jsonMarshal (lib : Lib Cfg) (custTestObjs : List (custTestConf Cfg)) :
    Except String String :=
  match encodeElems lib custTestObjs with
  | .error e => .error e
  | .ok elems => .ok (jsonArray elems)

/-- Go `Handler.UserTestPreferenceStore`. -/
def UserTestPreferenceStore (lib : Lib Cfg) (provider : Provider σ Cfg ρ)
    (req : Request) (s : Exec σ Cfg ρ) : Exec σ Cfg ρ :=
  match req.Body with
  | .error _ =>
    { s with w := httpError s.w "unable to read request body" StatusInternalServerError }
  | .ok body =>
    match lib.Unmarshal body with
    | .error _ =>
      { s with w := httpError s.w "unable to parse the provided input" StatusBadRequest }
    | .ok perfTest =>
      match lib.SMPSPerformanceTestConfigValidator perfTest with
      | some e => { s with w := httpError s.w e StatusBadRequest }
      | none =>
        let r := provider.SMPSTestConfigStore s.provider req perfTest
        let s1 : Exec σ Cfg ρ :=
          { s with
            provider := r.1
            calls := s.calls ++ [ProviderCall.SMPSTestConfigStore perfTest] }
        match r.2 with
        | .error _ =>
          { s1 with
            w := httpError s1.w "unable to save user preferences" StatusInternalServerError }
        | .ok tid => { s1 with w := s1.w.Write tid }

/-- Go `Handler.UserTestPreferenceGet`. -/
def UserTestPreferenceGet (lib : Lib Cfg) (provider : Provider σ Cfg ρ)
    (req : Request) (s : Exec σ Cfg ρ) : Exec σ Cfg ρ :=
  let testUUID := req.QueryGet "uuid"
  if testUUID = "" then
    let r := provider.SMPSTestConfigFetchAll s.provider req
    let s1 : Exec σ Cfg ρ :=
      { s with provider := r.1, calls := s.calls ++ [ProviderCall.SMPSTestConfigFetchAll] }
    match r.2 with
    | .error _ =>
      { s1 with w := httpError s1.w "error fetching test configs" StatusInternalServerError }
    | .ok testObj =>
      let custTestObjs : List (custTestConf Cfg) :=
        testObj.foldl (fun acc tst => acc ++ [{ Val := tst }]) []
      match jsonMarshal lib custTestObjs with
      | .error _ =>
        { s1 with w := httpError s1.w "error reading database" StatusInternalServerError }
      | .ok body => { s1 with w := s1.w.Write body }
  else
    let r := provider.SMPSTestConfigFetch s.provider req testUUID
    let s1 : Exec σ Cfg ρ :=
      { s with
        provider := r.1
        calls := s.calls ++ [ProviderCall.SMPSTestConfigFetch testUUID] }
    match r.2 with
    | .error _ =>
      { s1 with w := httpError s1.w "error fetching test configs" StatusInternalServerError }
    | .ok none => { s1 with w := s1.w.WriteHeader StatusNotFound }
    | .ok (some testObj) =>
      let m := lib.Marshal testObj
      let w1 := if m.1 = "" then s1.w else s1.w.Write m.1
      match m.2 with
      | some _ =>
        { s1 with w := httpError w1 "error reading database" StatusInternalServerError }
      | none => { s1 with w := w1 }

/-- Go `Handler.UserTestPreferenceDelete`. -/
def UserTestPreferenceDelete (provider : Provider σ Cfg ρ)
    (req : Request) (s : Exec σ Cfg ρ) : Exec σ Cfg ρ :=
  let testUUID := req.QueryGet "uuid"
  if testUUID = "" then
    { s with w := httpError s.w "field uuid not found" StatusBadRequest }
  else
    let r := provider.SMPSTestConfigDelete s.provider req testUUID
    { s with
      provider := r.1
      calls := s.calls ++ [ProviderCall.SMPSTestConfigDelete testUUID] }

/-- State in which a handler starts: nothing written, no provider call made. -/
def Exec.start (prefObj : Preference ρ) (st : σ) : Exec σ Cfg ρ :=
  { w := ResponseWriter.fresh, prefObj := prefObj, provider := st, calls := [] }

/-! ## A concrete instance of the collaborators

Used to evaluate the handlers on concrete requests. -/

/-- Value of a decimal digit. -/
def digitValue (ch : Char) : Nat :=
  ch.toNat - 48

/-- Value of a string of decimal digits. -/
def decimalValue (ds : List Char) : Nat :=
  ds.foldl (fun n ch => n * 10 + digitValue ch) 0

/-- A string between double quotes, a double quote or a backslash in it
preceded by a backslash: Go `strconv.Quote` on printable ASCII text. -/
def quoteASCII (s : String) : String :=
  let body := s.toList.foldl
    (fun acc c => if c = '"' ∨ c = '\\' then acc ++ ['\\', c] else acc ++ [c]) []
  "\"" ++ String.mk body ++ "\""

/-- The digit loop of Go `strconv.ParseUint` in base 10 with 64 bits, `n`
being the value read so far: a character that is not a digit is a syntax
error, a value beyond `uint64` a range error, whichever comes first. -/
def parseUintLoop : List Char → Nat → Except String Nat
  | [], n => .ok n
  | c :: rest, n =>
    if !c.isDigit then .error "invalid syntax"
    else if n * 10 + digitValue c > 18446744073709551615 then .error "value out of range"
    else parseUintLoop rest (n * 10 + digitValue c)

/-- Go `strconv.Atoi` on a platform with 64-bit `int`: an optional sign
followed by at least one decimal digit, the value within the range of
`int64`.  The handlers read whether it fails, not the text of its error, which
is rendered here as Go renders it for printable ASCII input. -/
def strconvAtoi (s : String) : Except String Int :=
  let failure (kind : String) : Except String Int :=
    .error ("strconv.Atoi: parsing " ++ quoteASCII s ++ ": " ++ kind)
  let neg : Bool := s.toList.head? = some '-'
  let ds : List Char :=
    match s.toList with
    | '-' :: r => r
    | '+' :: r => r
    | r => r
  if ds.isEmpty then failure "invalid syntax"
  else
    match parseUintLoop ds 0 with
    | .error kind => failure kind
    | .ok un =>
      if neg then
        if un > 9223372036854775808 then failure "value out of range"
        else .ok (-(un : Int))
      else
        if un ≥ 9223372036854775808 then failure "value out of range"
        else .ok (un : Int)

/-- Go `time.unitMap`: nanoseconds per unit. -/
def unitMap (u : String) : Option Nat :=
  if u = "ns" then some 1
  else if u = "us" ∨ u = "µs" ∨ u = "μs" then some 1000
  else if u = "ms" then some 1000000
  else if u = "s" then some 1000000000
  else if u = "m" then some 60000000000
  else if u = "h" then some 3600000000000
  else none

/-- Two lower-case hexadecimal digits of a byte. -/
def hexByte (b : Nat) : List Char :=
  let lowerhex := "0123456789abcdef".toList
  [lowerhex.getD (b / 16) '0', lowerhex.getD (b % 16) '0']

/-- Go `time.quote`: the string between double quotes, a double quote or a
backslash preceded by a backslash, and every byte of a control or non-ASCII
character written as a hexadecimal escape. -/
def timeQuote (s : String) : String :=
  let body := s.toList.foldl
    (fun acc c =>
      if c.toNat ≥ 128 ∨ c.toNat < 32 then
        acc ++ (String.utf8EncodeChar c).flatMap (fun b => ['\\', 'x'] ++ hexByte b.toNat)
      else if c = '"' ∨ c = '\\' then acc ++ ['\\', c]
      else acc ++ [c]) []
  "\"" ++ String.mk body ++ "\""

/-- The nearest `float64` to the positive rational `n / d`, ties going to the
even mantissa, as a fraction `(numerator, denominator)`.  The quotient is
brought to a mantissa of 53 bits by a power of two and rounded there.  The
values met in `time.ParseDuration` are far from the subnormal and the infinite
range, which are not treated. -/
def roundFloat64 (n d : Nat) : Nat × Nat :=
  if n = 0 then (0, 1)
  else
    let b := ((List.range 1100).find? (fun b => n / (d * 2 ^ b) < 2 ^ 53)).getD 0
    let a :=
      if b = 0 then ((List.range 1100).find? (fun a => 2 ^ 52 ≤ n * 2 ^ a / d)).getD 0
      else 0
    let q := n * 2 ^ a / (d * 2 ^ b)
    let r := n * 2 ^ a % (d * 2 ^ b)
    let q1 := if 2 * r > d * 2 ^ b ∨ (2 * r = d * 2 ^ b ∧ q % 2 = 1) then q + 1 else q
    (q1 * 2 ^ b, 2 ^ a)

/-- Go `time.leadingFraction` on the digits after the period: the value `x` of
the digits read before the first one that would take it beyond `1 << 63`, the
digits after that one being skipped, and the number of digits read, the scale
being ten to that power. -/
def leadingFraction (digits : List Char) : Nat × Nat :=
  let r := digits.foldl
    (fun (st : Nat × Nat × Bool) c =>
      if st.2.2 then st
      else if st.1 > 922337203685477580 then (st.1, st.2.1, true)
      else if st.1 * 10 + digitValue c > 9223372036854775808 then (st.1, st.2.1, true)
      else (st.1 * 10 + digitValue c, st.2.1 + 1, false))
    (0, 0, false)
  (r.1, r.2.1)

/-- Go `uint64(float64(f) * (float64(unit) / scale))` for `scale` ten to the
power `k`: the conversion of `f`, the quotient and the product are each
rounded to `float64`, and the result is truncated. -/
def fractionNanos (f unit k : Nat) : Nat :=
  let x := roundFloat64 f 1
  let r := roundFloat64 unit (10 ^ k)
  let p := roundFloat64 (x.1 * r.1) (x.2 * r.2)
  p.1 / p.2

/-- The loop of Go `time.ParseDuration` over the components
`[0-9]*(\.[0-9]*)?[a-z]+` of a duration, `d` being the nanoseconds
accumulated so far, in `uint64`.  Every round consumes at least one character,
so a fuel of one more than the length of the input is never used up. -/
def parseDurationLoop (orig : String) : Nat → List Char → Nat → Except String Nat
  | 0, _, d => .ok d
  | fuel + 1, s, d =>
    let invalid : Except String Nat := .error ("time: invalid duration " ++ timeQuote orig)
    match s with
    | [] => .ok d
    | c :: _ =>
      if !(c = '.' || c.isDigit) then invalid
      else
        let pre := s.takeWhile Char.isDigit
        let s1 := s.dropWhile Char.isDigit
        let v := decimalValue pre
        if v > 9223372036854775808 then invalid
        else
          let post := match s1 with
            | '.' :: r => r.takeWhile Char.isDigit
            | _ => []
          let s2 := match s1 with
            | '.' :: r => r.dropWhile Char.isDigit
            | _ => s1
          if pre.isEmpty && post.isEmpty then invalid
          else
            let u := s2.takeWhile (fun ch => !(ch = '.' || ch.isDigit))
            let s3 := s2.dropWhile (fun ch => !(ch = '.' || ch.isDigit))
            if u.isEmpty then .error ("time: missing unit in duration " ++ timeQuote orig)
            else
              match unitMap (String.mk u) with
              | none =>
                .error ("time: unknown unit " ++ timeQuote (String.mk u) ++ " in duration "
                  ++ timeQuote orig)
              | some unit =>
                if v > 9223372036854775808 / unit then invalid
                else
                  let f := leadingFraction post
                  let v1 :=
                    if f.1 > 0 then (v * unit + fractionNanos f.1 unit f.2) % 2 ^ 64
                    else v * unit
                  if v1 > 9223372036854775808 then invalid
                  else if (d + v1) % 2 ^ 64 > 9223372036854775808 then invalid
                  else parseDurationLoop orig fuel s3 ((d + v1) % 2 ^ 64)

/-- Go `time.ParseDuration`: an optional sign, then `0` or a sequence of
components, the total within the range of `int64`. -/
def timeParseDuration (orig : String) : Except String Int :=
  let invalid : Except String Int := .error ("time: invalid duration " ++ timeQuote orig)
  let neg : Bool := orig.toList.head? = some '-'
  let s : List Char :=
    match orig.toList with
    | '-' :: r => r
    | '+' :: r => r
    | r => r
  if s = ['0'] then .ok 0
  else if s.isEmpty then invalid
  else
    match parseDurationLoop orig (s.length + 1) s 0 with
    | .error e => .error e
    | .ok d =>
      if neg then .ok (-(d : Int))
      else if d > 9223372036854775807 then invalid
      else .ok (d : Int)

/-- A concrete `Lib` in which a test configuration is identified with its JSON
text: the load generators are named as in `models`, an empty body does not
parse, the empty document fails validation for lack of a name, and a nil
message cannot be marshalled. -/
def sampleLib : Lib String where
  Atoi := strconvAtoi
  ParseDuration := timeParseDuration
  FortioLGName := "fortio"
  Wrk2LGName := "wrk2"
  Unmarshal := fun body => if body = "" then .error "unexpected end of input" else .ok body
  SMPSPerformanceTestConfigValidator := fun perfTest =>
    if perfTest = "\x7b\x7d" then some "name field is blank" else none
  MarshalToString := fun m =>
    match m with
    | none => .error "Marshal called with nil"
    | some cfg => .ok cfg
  Marshal := fun cfg => (cfg, none)
  compact := fun b => .ok b

/-- A concrete in-memory `Provider` over the list of stored configurations, a
stored configuration `cfg` having the id `"id:" ++ cfg`.  With `failing` set,
every write to the store fails. -/
def sampleProvider (failing : Bool) : Provider (List String) String Unit where
  RecordPreferences := fun st _ _ _ =>
    (st, if failing then some "database is locked" else none)
  SMPSTestConfigStore := fun st _ perfTest =>
    if failing then (st, .error "database is locked")
    else (st ++ [perfTest], .ok ("id:" ++ perfTest))
  SMPSTestConfigFetchAll := fun st _ => (st, .ok (st.map some))
  SMPSTestConfigFetch := fun st _ testUUID =>
    (st, .ok (st.find? (fun cfg => "id:" ++ cfg = testUUID)))
  SMPSTestConfigDelete := fun st _ testUUID =>
    if failing then (st, some "database is locked")
    else (st.filter (fun cfg => "id:" ++ cfg ≠ testUUID), none)

/-! ## The vocabulary of the specification -/

namespace Spec

/-- A form value is a valid count when `strconv.Atoi` parses it to an integer
that is not negative. -/
def countOk (lib : Lib Cfg) (value : String) : Bool :=
  match lib.Atoi value with
  | .ok n => decide (0 ≤ n)
  | .error _ => false

/-- The `qps` check: the value parses and is not negative. -/
def qpsOk (lib : Lib Cfg) (req : Request) : Bool :=
  countOk lib (req.FormValue "qps")

/-- The `t` check: the value is accepted by `time.ParseDuration`. -/
def tOk (lib : Lib Cfg) (req : Request) : Bool :=
  match lib.ParseDuration (req.FormValue "t") with
  | .ok _ => true
  | .error _ => false

/-- The `c` check: the value parses and is not negative. -/
def cOk (lib : Lib Cfg) (req : Request) : Bool :=
  countOk lib (req.FormValue "c")

/-- The `gen` check: the value is the name of one of the two load
generators. -/
def genOk (lib : Lib Cfg) (req : Request) : Bool :=
  decide (req.FormValue "gen" = lib.FortioLGName ∨ req.FormValue "gen" = lib.Wrk2LGName)

/-- The response `http.Error` produces on a fresh writer for a rejected
field. -/
def badRequest (msg : String) : ResponseWriter :=
  { status := some 400, body := msg ++ "\n" }

/-- The client receives a status of the client-error class, 400 to 499. -/
def clientError (w : ResponseWriter) : Bool :=
  decide (400 ≤ w.finalStatus ∧ w.finalStatus < 500)

/-- The state a handler started on `prefObj` and `st` ends in when it rejects
the request with `msg`: a 400 response carrying the message, the preference
object and the provider as they were, and no provider call. -/
def rejected (prefObj : Preference ρ) (st : σ) (msg : String) : Exec σ Cfg ρ :=
  { w := badRequest msg, prefObj := prefObj, provider := st, calls := [] }

end Spec

/-- The preference object the handler builds from a valid request. -/
def assigned (prefObj : Preference ρ) (req : Request) (qps c : Int) : Preference ρ :=
  { LoadTestPreferences := some
      { ConcurrentRequests := c
        Duration := req.FormValue "t"
        QueriesPerSecond := qps
        LoadGenerator := req.FormValue "gen" }
    others := prefObj.others }

/-- A provider whose collection of configs holds one nil entry. -/
def nilEntryProvider : Provider Unit String Unit where
  RecordPreferences := fun st _ _ _ => (st, none)
  SMPSTestConfigStore := fun st _ perfTest => (st, .ok ("id:" ++ perfTest))
  SMPSTestConfigFetchAll := fun st _ => (st, .ok [none])
  SMPSTestConfigFetch := fun st _ _ => (st, .ok none)
  SMPSTestConfigDelete := fun st _ _ => (st, none)

/-! ## Requests used to evaluate the handlers -/

/-- A request with the given method carrying the four form fields. -/
def formRequest (method qps t c gen : String) : Request :=
  { Method := method
    Form := [("qps", qps), ("t", t), ("c", c), ("gen", gen)]
    Query := []
    Body := .ok "" }

/-- A request carrying a body and, when `uuid` is not empty, the query
parameter `uuid`. -/
def configRequest (method uuid body : String) : Request :=
  { Method := method
    Form := []
    Query := if uuid = "" then [] else [("uuid", uuid)]
    Body := .ok body }

/-- A user. -/
def sampleUser : User := { UserID := "user-1" }

/-- A preference object without load-test preferences. -/
def emptyPreference : Preference Unit := { LoadTestPreferences := none, others := () }

/-! ## Basic facts about the response writer -/

theorem httpError_fresh (msg : String) (code : Nat) :
    httpError ResponseWriter.fresh msg code = { status := some code, body := msg ++ "\n" } := by
  simp [httpError, ResponseWriter.fresh, ResponseWriter.WriteHeader, ResponseWriter.Write]

theorem write_fresh (b : String) :
    ResponseWriter.fresh.Write b = { status := some 200, body := b } := by
  simp [ResponseWriter.fresh, ResponseWriter.WriteHeader, ResponseWriter.Write, StatusOK]

theorem writeHeader_fresh (code : Nat) :
    ResponseWriter.fresh.WriteHeader code = { status := some code, body := "" } := by
  simp [ResponseWriter.fresh, ResponseWriter.WriteHeader]

/-! ## Path lemmas for `LoadTestPrefencesHandler` -/

theorem countOk_false_iff (lib : Lib Cfg) (value : String) :
    Spec.countOk lib value = false ↔
      ((∃ e, lib.Atoi value = .error e) ∨ (∃ n, lib.Atoi value = .ok n ∧ n < 0)) := by
  unfold Spec.countOk
  cases h : lib.Atoi value with
  | error e => simp
  | ok n => simp

theorem countOk_true_iff (lib : Lib Cfg) (value : String) :
    Spec.countOk lib value = true ↔ ∃ n, lib.Atoi value = .ok n ∧ 0 ≤ n := by
  unfold Spec.countOk
  cases h : lib.Atoi value with
  | error e => simp
  | ok n => simp

theorem genTrack_eq (lib : Lib Cfg) (req : Request) :
    [lib.FortioLGName, lib.Wrk2LGName].foldl
        (fun genTrack lgName => if lgName = req.FormValue "gen" then true else genTrack) false
      = Spec.genOk lib req := by
  unfold Spec.genOk
  by_cases h1 : lib.FortioLGName = req.FormValue "gen" <;>
    by_cases h2 : lib.Wrk2LGName = req.FormValue "gen" <;>
    simp [h1, h2, eq_comm]

theorem loadTest_notPost (lib : Lib Cfg) (provider : Provider σ Cfg ρ) (req : Request)
    (user : User) (s : Exec σ Cfg ρ) (hm : req.Method ≠ MethodPost) :
    LoadTestPrefencesHandler lib provider req user s =
      { s with w := s.w.WriteHeader StatusNotFound } := by
  simp [LoadTestPrefencesHandler, hm]

theorem loadTest_qpsBad (lib : Lib Cfg) (provider : Provider σ Cfg ρ) (req : Request)
    (user : User) (s : Exec σ Cfg ρ) (hm : req.Method = MethodPost)
    (hq : Spec.qpsOk lib req = false) :
    LoadTestPrefencesHandler lib provider req user s =
      { s with w := httpError s.w "please provide a valid value for qps" StatusBadRequest } := by
  unfold Spec.qpsOk Spec.countOk at hq
  unfold LoadTestPrefencesHandler
  cases h : lib.Atoi (req.FormValue "qps") with
  | error e => simp [hm, h]
  | ok n =>
    rw [h] at hq
    have hn : n < 0 := by simpa using hq
    simp [hm, h, hn]

theorem loadTest_tBad (lib : Lib Cfg) (provider : Provider σ Cfg ρ) (req : Request)
    (user : User) (s : Exec σ Cfg ρ) (hm : req.Method = MethodPost)
    (hq : Spec.qpsOk lib req = true) (ht : Spec.tOk lib req = false) :
    LoadTestPrefencesHandler lib provider req user s =
      { s with w := httpError s.w "please provide a valid value for t" StatusBadRequest } := by
  obtain ⟨n, hn, hn0⟩ := (countOk_true_iff lib _).1 hq
  unfold Spec.tOk at ht
  unfold LoadTestPrefencesHandler
  cases h : lib.ParseDuration (req.FormValue "t") with
  | error e => simp [hm, hn, h, not_lt.2 hn0]
  | ok d => simp [h] at ht

theorem loadTest_cBad (lib : Lib Cfg) (provider : Provider σ Cfg ρ) (req : Request)
    (user : User) (s : Exec σ Cfg ρ) (hm : req.Method = MethodPost)
    (hq : Spec.qpsOk lib req = true) (ht : Spec.tOk lib req = true)
    (hc : Spec.cOk lib req = false) :
    LoadTestPrefencesHandler lib provider req user s =
      { s with w := httpError s.w "please provide a valid value for c" StatusBadRequest } := by
  obtain ⟨n, hn, hn0⟩ := (countOk_true_iff lib _).1 hq
  unfold Spec.tOk at ht
  unfold Spec.cOk Spec.countOk at hc
  unfold LoadTestPrefencesHandler
  cases h : lib.ParseDuration (req.FormValue "t") with
  | error e => simp [h] at ht
  | ok d =>
    cases h2 : lib.Atoi (req.FormValue "c") with
    | error e => simp [hm, hn, h, h2, not_lt.2 hn0]
    | ok m =>
      rw [h2] at hc
      have hm0 : m < 0 := by simpa using hc
      simp [hm, hn, h, h2, not_lt.2 hn0, hm0]

theorem loadTest_genBad (lib : Lib Cfg) (provider : Provider σ Cfg ρ) (req : Request)
    (user : User) (s : Exec σ Cfg ρ) (hm : req.Method = MethodPost)
    (hq : Spec.qpsOk lib req = true) (ht : Spec.tOk lib req = true)
    (hc : Spec.cOk lib req = true) (hg : Spec.genOk lib req = false) :
    LoadTestPrefencesHandler lib provider req user s =
      { s with
        w := httpError s.w "please provide a valid value for gen (load generator)"
          StatusBadRequest } := by
  obtain ⟨n, hn, hn0⟩ := (countOk_true_iff lib _).1 hq
  obtain ⟨m, hm1, hm0⟩ := (countOk_true_iff lib _).1 hc
  unfold Spec.tOk at ht
  have hgt := genTrack_eq lib req
  rw [hg] at hgt
  unfold LoadTestPrefencesHandler
  cases h : lib.ParseDuration (req.FormValue "t") with
  | error e => simp [h] at ht
  | ok d =>
    simp only [hm, hn, hm1, hgt, h]
    simp [not_lt.2 hn0, not_lt.2 hm0]

/-- Outcome of `LoadTestPrefencesHandler` on a request that passes the four
checks: the new preferences are assigned, the provider is called once, and
the response depends on the result of that call alone. -/
theorem loadTest_valid (lib : Lib Cfg) (provider : Provider σ Cfg ρ) (req : Request)
    (user : User) (s : Exec σ Cfg ρ) (qps c : Int) (hm : req.Method = MethodPost)
    (hq : lib.Atoi (req.FormValue "qps") = .ok qps) (hq0 : 0 ≤ qps)
    (ht : Spec.tOk lib req = true)
    (hc : lib.Atoi (req.FormValue "c") = .ok c) (hc0 : 0 ≤ c)
    (hg : Spec.genOk lib req = true)
    (pref : Preference ρ)
    (hpref : pref =
      { LoadTestPreferences := some
          { ConcurrentRequests := c
            Duration := req.FormValue "t"
            QueriesPerSecond := qps
            LoadGenerator := req.FormValue "gen" }
        others := s.prefObj.others }) :
    LoadTestPrefencesHandler lib provider req user s =
      { w :=
          match (provider.RecordPreferences s.provider req user.UserID pref).2 with
          | some _ => httpError s.w "unable to save user preferences" StatusInternalServerError
          | none => s.w.Write "\x7b\x7d"
        prefObj := pref
        provider := (provider.RecordPreferences s.provider req user.UserID pref).1
        calls := s.calls ++ [ProviderCall.RecordPreferences user.UserID pref] } := by
  unfold Spec.tOk at ht
  have hgt := genTrack_eq lib req
  rw [hg] at hgt
  subst hpref
  unfold LoadTestPrefencesHandler
  cases h : lib.ParseDuration (req.FormValue "t") with
  | error e => simp [h] at ht
  | ok d =>
    simp only [hm, hq, hc, hgt, h]
    cases hr : (provider.RecordPreferences s.provider req user.UserID
      { LoadTestPreferences := some
          { ConcurrentRequests := c
            Duration := req.FormValue "t"
            QueriesPerSecond := qps
            LoadGenerator := req.FormValue "gen" }
        others := s.prefObj.others }).2 with
    | none => simp [hr, not_lt.2 hq0, not_lt.2 hc0]
    | some e => simp [hr, not_lt.2 hq0, not_lt.2 hc0]

theorem start_rejected (prefObj : Preference ρ) (st : σ) (msg : String) :
    ({ (Exec.start prefObj st : Exec σ Cfg ρ) with
        w := httpError (Exec.start prefObj st : Exec σ Cfg ρ).w msg StatusBadRequest }) =
      Spec.rejected prefObj st msg := by
  simp [Exec.start, Spec.rejected, Spec.badRequest, httpError_fresh, StatusBadRequest]

/-- Outcome on a valid request, from the start state. -/
theorem loadTest_valid_start (lib : Lib Cfg) (provider : Provider σ Cfg ρ) (req : Request)
    (user : User) (prefObj : Preference ρ) (st : σ) (qps c : Int)
    (hm : req.Method = MethodPost)
    (hq : lib.Atoi (req.FormValue "qps") = .ok qps) (hq0 : 0 ≤ qps)
    (ht : Spec.tOk lib req = true)
    (hc : lib.Atoi (req.FormValue "c") = .ok c) (hc0 : 0 ≤ c)
    (hg : Spec.genOk lib req = true) :
    LoadTestPrefencesHandler lib provider req user (Exec.start prefObj st) =
      { w :=
          match (provider.RecordPreferences st req user.UserID (assigned prefObj req qps c)).2 with
          | some _ => { status := some 500, body := "unable to save user preferences\n" }
          | none => { status := some 200, body := "\x7b\x7d" }
        prefObj := assigned prefObj req qps c
        provider := (provider.RecordPreferences st req user.UserID (assigned prefObj req qps c)).1
        calls := [ProviderCall.RecordPreferences user.UserID (assigned prefObj req qps c)] } := by
  rw [loadTest_valid lib provider req user (Exec.start prefObj st) qps c hm hq hq0 ht hc hc0 hg
    (assigned prefObj req qps c) rfl]
  simp only [Exec.start, httpError_fresh, write_fresh, List.nil_append,
    StatusInternalServerError]
  rfl

/-- Every run from the start state ends in one of six ways. -/
theorem loadTest_cases (lib : Lib Cfg) (provider : Provider σ Cfg ρ) (req : Request)
    (user : User) (prefObj : Preference ρ) (st : σ) :
    (req.Method ≠ MethodPost ∧
      LoadTestPrefencesHandler lib provider req user (Exec.start prefObj st) =
        { w := { status := some 404, body := "" }, prefObj := prefObj, provider := st,
          calls := [] }) ∨
    (req.Method = MethodPost ∧ Spec.qpsOk lib req = false ∧
      LoadTestPrefencesHandler lib provider req user (Exec.start prefObj st) =
        Spec.rejected prefObj st "please provide a valid value for qps") ∨
    (req.Method = MethodPost ∧ Spec.qpsOk lib req = true ∧ Spec.tOk lib req = false ∧
      LoadTestPrefencesHandler lib provider req user (Exec.start prefObj st) =
        Spec.rejected prefObj st "please provide a valid value for t") ∨
    (req.Method = MethodPost ∧ Spec.qpsOk lib req = true ∧ Spec.tOk lib req = true ∧
      Spec.cOk lib req = false ∧
      LoadTestPrefencesHandler lib provider req user (Exec.start prefObj st) =
        Spec.rejected prefObj st "please provide a valid value for c") ∨
    (req.Method = MethodPost ∧ Spec.qpsOk lib req = true ∧ Spec.tOk lib req = true ∧
      Spec.cOk lib req = true ∧ Spec.genOk lib req = false ∧
      LoadTestPrefencesHandler lib provider req user (Exec.start prefObj st) =
        Spec.rejected prefObj st "please provide a valid value for gen (load generator)") ∨
    (req.Method = MethodPost ∧ Spec.qpsOk lib req = true ∧ Spec.tOk lib req = true ∧
      Spec.cOk lib req = true ∧ Spec.genOk lib req = true ∧
      ∃ qps c, lib.Atoi (req.FormValue "qps") = .ok qps ∧ 0 ≤ qps ∧
        lib.Atoi (req.FormValue "c") = .ok c ∧ 0 ≤ c ∧
        LoadTestPrefencesHandler lib provider req user (Exec.start prefObj st) =
          { w :=
              match (provider.RecordPreferences st req user.UserID
                (assigned prefObj req qps c)).2 with
              | some _ => { status := some 500, body := "unable to save user preferences\n" }
              | none => { status := some 200, body := "\x7b\x7d" }
            prefObj := assigned prefObj req qps c
            provider :=
              (provider.RecordPreferences st req user.UserID (assigned prefObj req qps c)).1
            calls := [ProviderCall.RecordPreferences user.UserID (assigned prefObj req qps c)] }) := by
  by_cases hm : req.Method = MethodPost
  swap
  · left
    refine ⟨hm, ?_⟩
    rw [loadTest_notPost lib provider req user _ hm]
    simp [Exec.start, writeHeader_fresh, StatusNotFound]
  right
  cases hq : Spec.qpsOk lib req
  · left
    refine ⟨hm, rfl, ?_⟩
    rw [loadTest_qpsBad lib provider req user _ hm hq, start_rejected]
  right
  cases ht : Spec.tOk lib req
  · left
    refine ⟨hm, rfl, rfl, ?_⟩
    rw [loadTest_tBad lib provider req user _ hm hq ht, start_rejected]
  right
  cases hc : Spec.cOk lib req
  · left
    refine ⟨hm, rfl, rfl, rfl, ?_⟩
    rw [loadTest_cBad lib provider req user _ hm hq ht hc, start_rejected]
  right
  cases hg : Spec.genOk lib req
  · left
    refine ⟨hm, rfl, rfl, rfl, rfl, ?_⟩
    rw [loadTest_genBad lib provider req user _ hm hq ht hc hg, start_rejected]
  right
  obtain ⟨qps, hq1, hq0⟩ := (countOk_true_iff lib _).1 hq
  obtain ⟨c, hc1, hc0⟩ := (countOk_true_iff lib _).1 hc
  exact ⟨hm, rfl, rfl, rfl, rfl, qps, c, hq1, hq0, hc1, hc0,
    loadTest_valid_start lib provider req user prefObj st qps c hm hq1 hq0 ht hc1 hc0 hg⟩

/-! ## The preference update handler -/

/-- C1: on a POST request whose `qps` and `c` parse to integers that are not
negative, whose `t` is accepted by `time.ParseDuration`, whose `gen` is the
name of `FortioLG` or `Wrk2LG`, and for which `RecordPreferences` returns no
error, the handler calls the provider exactly once, with the user's id and a
preference whose `LoadTestPreferences` holds the parsed `qps`, the `t` string
as given, the parsed `c` and `gen`, and the response is 200 with the body
`{}`; the provider is left in the state that call produced. -/
theorem loadTest_success (lib : Lib Cfg) (provider : Provider σ Cfg ρ) (req : Request)
    (user : User) (prefObj : Preference ρ) (st : σ) (qps c d : Int)
    (out : Exec σ Cfg ρ)
    (hout : out = LoadTestPrefencesHandler lib provider req user (Exec.start prefObj st))
    (hm : req.Method = MethodPost)
    (hq : lib.Atoi (req.FormValue "qps") = .ok qps) (hq0 : 0 ≤ qps)
    (ht : lib.ParseDuration (req.FormValue "t") = .ok d)
    (hc : lib.Atoi (req.FormValue "c") = .ok c) (hc0 : 0 ≤ c)
    (hg : req.FormValue "gen" = lib.FortioLGName ∨ req.FormValue "gen" = lib.Wrk2LGName)
    (hp : (provider.RecordPreferences st req user.UserID
      { LoadTestPreferences := some
          { ConcurrentRequests := c
            Duration := req.FormValue "t"
            QueriesPerSecond := qps
            LoadGenerator := req.FormValue "gen" }
        others := prefObj.others }).2 = none) :
    out.calls = [ProviderCall.RecordPreferences user.UserID
      { LoadTestPreferences := some
          { ConcurrentRequests := c
            Duration := req.FormValue "t"
            QueriesPerSecond := qps
            LoadGenerator := req.FormValue "gen" }
        others := prefObj.others }] ∧
    out.w = { status := some 200, body := "\x7b\x7d" } ∧
    out.provider = (provider.RecordPreferences st req user.UserID
      { LoadTestPreferences := some
          { ConcurrentRequests := c
            Duration := req.FormValue "t"
            QueriesPerSecond := qps
            LoadGenerator := req.FormValue "gen" }
        others := prefObj.others }).1 := by
  have ht1 : Spec.tOk lib req = true := by simp [Spec.tOk, ht]
  have hg1 : Spec.genOk lib req = true := by simpa [Spec.genOk] using hg
  have hp1 : (provider.RecordPreferences st req user.UserID (assigned prefObj req qps c)).2
      = none := hp
  rw [hout, loadTest_valid_start lib provider req user prefObj st qps c hm hq hq0 ht1 hc hc0 hg1]
  simp only [hp1]
  refine ⟨?_, ?_, ?_⟩ <;> first | rfl | trivial

/-- The request `qps=10, t=30s, c=5, gen=fortio` makes the handler record
`{10, "30s", 5, "fortio"}` once and answer `{}`. -/
theorem loadTest_success_witness :
    (LoadTestPrefencesHandler sampleLib (sampleProvider false)
        (formRequest "POST" "10" "30s" "5" "fortio") sampleUser
        (Exec.start emptyPreference [])).calls =
      [ProviderCall.RecordPreferences "user-1"
        { LoadTestPreferences := some
            { ConcurrentRequests := 5
              Duration := "30s"
              QueriesPerSecond := 10
              LoadGenerator := "fortio" }
          others := () }] ∧
    (LoadTestPrefencesHandler sampleLib (sampleProvider false)
        (formRequest "POST" "10" "30s" "5" "fortio") sampleUser
        (Exec.start emptyPreference [])).w = { status := some 200, body := "\x7b\x7d" } :=
  have h := loadTest_success sampleLib (sampleProvider false)
    (formRequest "POST" "10" "30s" "5" "fortio") sampleUser emptyPreference [] 10 5 30000000000
    _ rfl rfl rfl (by decide) rfl rfl (by decide) (Or.inl rfl) rfl
  ⟨h.1, h.2.1⟩

theorem clientError_rejected (prefObj : Preference ρ) (st : σ) (msg : String) :
    Spec.clientError (Spec.rejected prefObj st msg : Exec σ Cfg ρ).w = true :=
  rfl

/-- C2: when the `qps` value or the `c` value is non-numeric (`strconv.Atoi`
fails on it) or negative, whatever the method and the other fields are, the
response has a 4xx status and the provider is not called; the provider state
and the preference object are as they were. -/
theorem loadTest_badCount (lib : Lib Cfg) (provider : Provider σ Cfg ρ) (req : Request)
    (user : User) (prefObj : Preference ρ) (st : σ) (out : Exec σ Cfg ρ)
    (hout : out = LoadTestPrefencesHandler lib provider req user (Exec.start prefObj st))
    (h : (∃ e, lib.Atoi (req.FormValue "qps") = .error e) ∨
      (∃ n, lib.Atoi (req.FormValue "qps") = .ok n ∧ n < 0) ∨
      (∃ e, lib.Atoi (req.FormValue "c") = .error e) ∨
      (∃ n, lib.Atoi (req.FormValue "c") = .ok n ∧ n < 0)) :
    Spec.clientError out.w = true ∧ out.calls = [] ∧ out.provider = st ∧
      out.prefObj = prefObj := by
  have hbad : Spec.qpsOk lib req = false ∨ Spec.cOk lib req = false := by
    rcases h with h | h | h | h
    · exact Or.inl ((countOk_false_iff lib _).2 (Or.inl h))
    · exact Or.inl ((countOk_false_iff lib _).2 (Or.inr h))
    · exact Or.inr ((countOk_false_iff lib _).2 (Or.inl h))
    · exact Or.inr ((countOk_false_iff lib _).2 (Or.inr h))
  rcases loadTest_cases lib provider req user prefObj st with
    ⟨_, e⟩ | ⟨_, _, e⟩ | ⟨_, _, _, e⟩ | ⟨_, _, _, _, e⟩ | ⟨_, hq, _, hc, _, _⟩ |
    ⟨_, hq, _, hc, _, _⟩
  · rw [hout, e]
    exact ⟨rfl, rfl, rfl, rfl⟩
  · rw [hout, e]
    exact ⟨clientError_rejected prefObj st _, rfl, rfl, rfl⟩
  · rw [hout, e]
    exact ⟨clientError_rejected prefObj st _, rfl, rfl, rfl⟩
  · rw [hout, e]
    exact ⟨clientError_rejected prefObj st _, rfl, rfl, rfl⟩
  · rcases hbad with hb | hb
    · rw [hq] at hb; cases hb
    · rw [hc] at hb; cases hb
  · rcases hbad with hb | hb
    · rw [hq] at hb; cases hb
    · rw [hc] at hb; cases hb

/-- A POST request without the `qps` field, the other fields being valid, is
answered 400 without a provider call. -/
theorem loadTest_badCount_witness :
    Spec.clientError (LoadTestPrefencesHandler sampleLib (sampleProvider false)
        { Method := "POST", Form := [("t", "30s"), ("c", "5"), ("gen", "fortio")], Query := [],
          Body := .ok "" } sampleUser (Exec.start emptyPreference [])).w = true ∧
    (LoadTestPrefencesHandler sampleLib (sampleProvider false)
        { Method := "POST", Form := [("t", "30s"), ("c", "5"), ("gen", "fortio")], Query := [],
          Body := .ok "" } sampleUser (Exec.start emptyPreference [])).calls = [] :=
  have h := loadTest_badCount sampleLib (sampleProvider false)
    { Method := "POST", Form := [("t", "30s"), ("c", "5"), ("gen", "fortio")], Query := [],
      Body := .ok "" } sampleUser emptyPreference [] _ rfl (Or.inl ⟨_, rfl⟩)
  ⟨h.1, h.2.1⟩

/-- C3: on a POST request the checks run in the order `qps`, `t`, `c`, `gen`,
and the first one that fails decides the response: 400 with the message of
that field, whatever the later fields hold, the preference object and the
provider untouched.  In particular a `t` that fails duration parsing is
answered with the `qps` or the `t` message, never with that of `gen`. -/
theorem loadTest_firstFailure (lib : Lib Cfg) (provider : Provider σ Cfg ρ) (req : Request)
    (user : User) (prefObj : Preference ρ) (st : σ) (out : Exec σ Cfg ρ)
    (hout : out = LoadTestPrefencesHandler lib provider req user (Exec.start prefObj st))
    (hm : req.Method = MethodPost) :
    (Spec.qpsOk lib req = false →
      out = Spec.rejected prefObj st "please provide a valid value for qps") ∧
    (Spec.qpsOk lib req = true → Spec.tOk lib req = false →
      out = Spec.rejected prefObj st "please provide a valid value for t") ∧
    (Spec.qpsOk lib req = true → Spec.tOk lib req = true → Spec.cOk lib req = false →
      out = Spec.rejected prefObj st "please provide a valid value for c") ∧
    (Spec.qpsOk lib req = true → Spec.tOk lib req = true → Spec.cOk lib req = true →
      Spec.genOk lib req = false →
      out = Spec.rejected prefObj st "please provide a valid value for gen (load generator)") ∧
    (Spec.tOk lib req = false →
      out = Spec.rejected prefObj st "please provide a valid value for qps" ∨
      out = Spec.rejected prefObj st "please provide a valid value for t") := by
  have e1 : Spec.qpsOk lib req = false →
      out = Spec.rejected prefObj st "please provide a valid value for qps" := by
    intro hq
    rw [hout, loadTest_qpsBad lib provider req user _ hm hq, start_rejected]
  have e2 : Spec.qpsOk lib req = true → Spec.tOk lib req = false →
      out = Spec.rejected prefObj st "please provide a valid value for t" := by
    intro hq ht
    rw [hout, loadTest_tBad lib provider req user _ hm hq ht, start_rejected]
  refine ⟨e1, e2, ?_, ?_, ?_⟩
  · intro hq ht hc
    rw [hout, loadTest_cBad lib provider req user _ hm hq ht hc, start_rejected]
  · intro hq ht hc hg
    rw [hout, loadTest_genBad lib provider req user _ hm hq ht hc hg, start_rejected]
  · intro ht
    cases hq : Spec.qpsOk lib req
    · exact Or.inl (e1 hq)
    · exact Or.inr (e2 hq ht)

/-- A POST request whose `t` does not parse and whose `gen` is unknown is
answered with the message for `t`. -/
theorem loadTest_firstFailure_witness :
    LoadTestPrefencesHandler sampleLib (sampleProvider false)
        (formRequest "POST" "10" "half a minute" "5" "nighthawk") sampleUser
        (Exec.start emptyPreference []) =
      Spec.rejected emptyPreference [] "please provide a valid value for t" :=
  (loadTest_firstFailure sampleLib (sampleProvider false)
    (formRequest "POST" "10" "half a minute" "5" "nighthawk") sampleUser emptyPreference []
    _ rfl rfl).2.1 rfl rfl

theorem genOk_false_iff (lib : Lib Cfg) (req : Request) :
    Spec.genOk lib req = false ↔
      ¬(req.FormValue "gen" = lib.FortioLGName ∨ req.FormValue "gen" = lib.Wrk2LGName) := by
  simp [Spec.genOk]

theorem genOk_true_iff (lib : Lib Cfg) (req : Request) :
    Spec.genOk lib req = true ↔
      (req.FormValue "gen" = lib.FortioLGName ∨ req.FormValue "gen" = lib.Wrk2LGName) := by
  simp [Spec.genOk]

/-- C4: a `gen` that is neither the name of `FortioLG` nor that of `Wrk2LG`,
compared as strings, gets a 4xx response and no provider call; when the
method is POST and `qps`, `t` and `c` are valid, that response is 400 with the
message for `gen`, and `gen` is accepted, the provider being called, exactly
when it equals one of the two names. -/
theorem loadTest_genMembership (lib : Lib Cfg) (provider : Provider σ Cfg ρ) (req : Request)
    (user : User) (prefObj : Preference ρ) (st : σ) (out : Exec σ Cfg ρ)
    (hout : out = LoadTestPrefencesHandler lib provider req user (Exec.start prefObj st)) :
    (¬(req.FormValue "gen" = lib.FortioLGName ∨ req.FormValue "gen" = lib.Wrk2LGName) →
      Spec.clientError out.w = true ∧ out.calls = []) ∧
    (req.Method = MethodPost → Spec.qpsOk lib req = true → Spec.tOk lib req = true →
      Spec.cOk lib req = true →
      ((¬(req.FormValue "gen" = lib.FortioLGName ∨ req.FormValue "gen" = lib.Wrk2LGName) ↔
          out = Spec.rejected prefObj st
            "please provide a valid value for gen (load generator)") ∧
        ((req.FormValue "gen" = lib.FortioLGName ∨ req.FormValue "gen" = lib.Wrk2LGName) ↔
          ∃ pref, out.calls = [ProviderCall.RecordPreferences user.UserID pref]))) := by
  rcases loadTest_cases lib provider req user prefObj st with
    ⟨hm, e⟩ | ⟨hm, hq, e⟩ | ⟨hm, hq, ht, e⟩ | ⟨hm, hq, ht, hc, e⟩ | ⟨hm, hq, ht, hc, hg, e⟩ |
    ⟨hm, hq, ht, hc, hg, qps, c, _, _, _, _, e⟩
  · refine ⟨fun _ => ?_, fun hm1 => absurd hm1 hm⟩
    rw [hout, e]
    exact ⟨rfl, rfl⟩
  · refine ⟨fun _ => ?_, fun _ hq1 => ?_⟩
    · rw [hout, e]
      exact ⟨clientError_rejected prefObj st _, rfl⟩
    · rw [hq] at hq1; cases hq1
  · refine ⟨fun _ => ?_, fun _ _ ht1 => ?_⟩
    · rw [hout, e]
      exact ⟨clientError_rejected prefObj st _, rfl⟩
    · rw [ht] at ht1; cases ht1
  · refine ⟨fun _ => ?_, fun _ _ _ hc1 => ?_⟩
    · rw [hout, e]
      exact ⟨clientError_rejected prefObj st _, rfl⟩
    · rw [hc] at hc1; cases hc1
  · have hng := (genOk_false_iff lib req).1 hg
    refine ⟨fun _ => ?_, fun _ _ _ _ => ⟨⟨fun _ => ?_, fun _ => hng⟩, ⟨fun h => absurd h hng, ?_⟩⟩⟩
    · rw [hout, e]
      exact ⟨clientError_rejected prefObj st _, rfl⟩
    · rw [hout, e]
    · rintro ⟨pref, hp⟩
      rw [hout, e] at hp
      simp [Spec.rejected] at hp
  · have hyg := (genOk_true_iff lib req).1 hg
    refine ⟨fun h => absurd hyg h, fun _ _ _ _ =>
      ⟨⟨fun h => absurd hyg h, fun h => ?_⟩,
        ⟨fun _ => ⟨assigned prefObj req qps c, ?_⟩, fun _ => hyg⟩⟩⟩
    · rw [hout, e] at h
      have hcalls := congrArg Exec.calls h
      simp [Spec.rejected] at hcalls
    · rw [hout, e]

/-- With valid `qps`, `t` and `c`, the generator name `nighthawk` is rejected
with the message for `gen`. -/
theorem loadTest_genMembership_witness :
    LoadTestPrefencesHandler sampleLib (sampleProvider false)
        (formRequest "POST" "10" "30s" "5" "nighthawk") sampleUser
        (Exec.start emptyPreference []) =
      Spec.rejected emptyPreference [] "please provide a valid value for gen (load generator)" :=
  ((loadTest_genMembership sampleLib (sampleProvider false)
    (formRequest "POST" "10" "30s" "5" "nighthawk") sampleUser emptyPreference []
    _ rfl).2 rfl rfl rfl rfl).1.1 (by decide)

/-- C8: a request whose method is not POST gets 404 with an empty body,
whatever its form fields are, without a provider call and with the preference
object as it was; a POST request gets 400, 500 or 200, never 404. -/
theorem loadTest_postOnly (lib : Lib Cfg) (provider : Provider σ Cfg ρ) (req : Request)
    (user : User) (prefObj : Preference ρ) (st : σ) (out : Exec σ Cfg ρ)
    (hout : out = LoadTestPrefencesHandler lib provider req user (Exec.start prefObj st)) :
    (req.Method ≠ MethodPost →
      out = { w := { status := some 404, body := "" }, prefObj := prefObj, provider := st,
              calls := [] }) ∧
    (req.Method = MethodPost →
      (out.w.status = some 400 ∨ out.w.status = some 500 ∨ out.w.status = some 200) ∧
      out.w.finalStatus ≠ 404) := by
  rcases loadTest_cases lib provider req user prefObj st with
    ⟨hm, e⟩ | ⟨hm, _, e⟩ | ⟨hm, _, _, e⟩ | ⟨hm, _, _, _, e⟩ | ⟨hm, _, _, _, _, e⟩ |
    ⟨hm, _, _, _, _, qps, c, _, _, _, _, e⟩
  · exact ⟨fun _ => by rw [hout, e], fun hm1 => absurd hm1 hm⟩
  · refine ⟨fun h => absurd hm h, fun _ => ?_⟩
    rw [hout, e]
    exact ⟨Or.inl rfl, by simp [Spec.rejected, Spec.badRequest, ResponseWriter.finalStatus]⟩
  · refine ⟨fun h => absurd hm h, fun _ => ?_⟩
    rw [hout, e]
    exact ⟨Or.inl rfl, by simp [Spec.rejected, Spec.badRequest, ResponseWriter.finalStatus]⟩
  · refine ⟨fun h => absurd hm h, fun _ => ?_⟩
    rw [hout, e]
    exact ⟨Or.inl rfl, by simp [Spec.rejected, Spec.badRequest, ResponseWriter.finalStatus]⟩
  · refine ⟨fun h => absurd hm h, fun _ => ?_⟩
    rw [hout, e]
    exact ⟨Or.inl rfl, by simp [Spec.rejected, Spec.badRequest, ResponseWriter.finalStatus]⟩
  · refine ⟨fun h => absurd hm h, fun _ => ?_⟩
    rw [hout, e]
    cases (provider.RecordPreferences st req user.UserID (assigned prefObj req qps c)).2 with
    | none => exact ⟨Or.inr (Or.inr rfl), by simp [ResponseWriter.finalStatus]⟩
    | some err => exact ⟨Or.inr (Or.inl rfl), by simp [ResponseWriter.finalStatus]⟩

/-- A PUT request with four valid fields is answered 404 with an empty body and
changes nothing. -/
theorem loadTest_postOnly_witness :
    LoadTestPrefencesHandler sampleLib (sampleProvider false)
        (formRequest "PUT" "10" "30s" "5" "fortio") sampleUser
        (Exec.start emptyPreference []) =
      { w := { status := some 404, body := "" }, prefObj := emptyPreference, provider := [],
        calls := [] } :=
  (loadTest_postOnly sampleLib (sampleProvider false)
    (formRequest "PUT" "10" "30s" "5" "fortio") sampleUser emptyPreference [] _ rfl).1
    (by decide)

/-- C10: on a POST request that passes the four checks the handler assigns
the new load-test preferences to the preference object before it calls the
provider and does not restore the old value: when `RecordPreferences` returns
an error, whatever its text, the response is 500 with the fixed message
`unable to save user preferences` and the preference object holds the new
value.  On a POST request that fails a check the preference object is as it
was, so the assignment happens exactly when the four checks pass. -/
theorem loadTest_notAtomic (lib : Lib Cfg) (provider : Provider σ Cfg ρ) (req : Request)
    (user : User) (prefObj : Preference ρ) (st : σ) (out : Exec σ Cfg ρ)
    (hout : out = LoadTestPrefencesHandler lib provider req user (Exec.start prefObj st))
    (hm : req.Method = MethodPost) :
    (∀ qps c : Int, lib.Atoi (req.FormValue "qps") = .ok qps → 0 ≤ qps →
      Spec.tOk lib req = true → lib.Atoi (req.FormValue "c") = .ok c → 0 ≤ c →
      Spec.genOk lib req = true →
      out.prefObj =
        { LoadTestPreferences := some
            { ConcurrentRequests := c
              Duration := req.FormValue "t"
              QueriesPerSecond := qps
              LoadGenerator := req.FormValue "gen" }
          others := prefObj.others } ∧
      ∀ e, (provider.RecordPreferences st req user.UserID
          { LoadTestPreferences := some
              { ConcurrentRequests := c
                Duration := req.FormValue "t"
                QueriesPerSecond := qps
                LoadGenerator := req.FormValue "gen" }
            others := prefObj.others }).2 = some e →
        out.w = { status := some 500, body := "unable to save user preferences\n" }) ∧
    (¬(Spec.qpsOk lib req = true ∧ Spec.tOk lib req = true ∧ Spec.cOk lib req = true ∧
        Spec.genOk lib req = true) →
      out.prefObj = prefObj) := by
  constructor
  · intro qps c hq hq0 ht hc hc0 hg
    have e := loadTest_valid_start lib provider req user prefObj st qps c hm hq hq0 ht hc hc0 hg
    refine ⟨by rw [hout, e]; rfl, fun err herr => ?_⟩
    have herr1 : (provider.RecordPreferences st req user.UserID
        (assigned prefObj req qps c)).2 = some err := herr
    rw [hout, e]
    simp only [herr1]
  · intro hn
    rcases loadTest_cases lib provider req user prefObj st with
      ⟨hm1, _⟩ | ⟨_, _, e⟩ | ⟨_, _, _, e⟩ | ⟨_, _, _, _, e⟩ | ⟨_, _, _, _, _, e⟩ |
      ⟨_, hq, ht, hc, hg, _⟩
    · exact absurd hm hm1
    · rw [hout, e]; rfl
    · rw [hout, e]; rfl
    · rw [hout, e]; rfl
    · rw [hout, e]; rfl
    · exact absurd ⟨hq, ht, hc, hg⟩ hn

/-- With a provider whose writes fail, the valid request `qps=10, t=30s, c=5,
gen=wrk2` is answered 500 while the preference object already holds the new
value. -/
theorem loadTest_notAtomic_witness :
    (LoadTestPrefencesHandler sampleLib (sampleProvider true)
        (formRequest "POST" "10" "30s" "5" "wrk2") sampleUser
        (Exec.start emptyPreference [])).prefObj =
      { LoadTestPreferences := some
          { ConcurrentRequests := 5
            Duration := "30s"
            QueriesPerSecond := 10
            LoadGenerator := "wrk2" }
        others := () } ∧
    (LoadTestPrefencesHandler sampleLib (sampleProvider true)
        (formRequest "POST" "10" "30s" "5" "wrk2") sampleUser
        (Exec.start emptyPreference [])).w =
      { status := some 500, body := "unable to save user preferences\n" } :=
  have h := (loadTest_notAtomic sampleLib (sampleProvider true)
    (formRequest "POST" "10" "30s" "5" "wrk2") sampleUser emptyPreference [] _ rfl rfl).1
    10 5 rfl (by decide) rfl rfl (by decide) rfl
  ⟨h.1, h.2 "database is locked" rfl⟩

/-! ## The test-config submission handler -/

/-- Every run of `UserTestPreferenceStore` from the start state ends in one of
four ways. -/
theorem store_cases (lib : Lib Cfg) (provider : Provider σ Cfg ρ) (req : Request)
    (prefObj : Preference ρ) (st : σ) :
    ((∃ e, req.Body = .error e) ∧
      UserTestPreferenceStore lib provider req (Exec.start prefObj st) =
        { w := { status := some 500, body := "unable to read request body\n" },
          prefObj := prefObj, provider := st, calls := [] }) ∨
    (∃ body, req.Body = .ok body ∧ (∃ e, lib.Unmarshal body = .error e) ∧
      UserTestPreferenceStore lib provider req (Exec.start prefObj st) =
        Spec.rejected prefObj st "unable to parse the provided input") ∨
    (∃ body perfTest e, req.Body = .ok body ∧ lib.Unmarshal body = .ok perfTest ∧
      lib.SMPSPerformanceTestConfigValidator perfTest = some e ∧
      UserTestPreferenceStore lib provider req (Exec.start prefObj st) =
        Spec.rejected prefObj st e) ∨
    (∃ body perfTest, req.Body = .ok body ∧ lib.Unmarshal body = .ok perfTest ∧
      lib.SMPSPerformanceTestConfigValidator perfTest = none ∧
      (UserTestPreferenceStore lib provider req (Exec.start prefObj st)).calls =
        [ProviderCall.SMPSTestConfigStore perfTest]) := by
  unfold UserTestPreferenceStore
  cases hb : req.Body with
  | error e =>
    left
    refine ⟨⟨e, rfl⟩, ?_⟩
    simp only [Exec.start, httpError_fresh, StatusInternalServerError]
    rfl
  | ok body =>
    right
    cases hu : lib.Unmarshal body with
    | error e =>
      left
      refine ⟨body, rfl, ⟨e, hu⟩, ?_⟩
      simp only [hu, Exec.start, httpError_fresh, StatusBadRequest]
      rfl
    | ok perfTest =>
      right
      cases hv : lib.SMPSPerformanceTestConfigValidator perfTest with
      | some e =>
        left
        refine ⟨body, perfTest, e, rfl, hu, hv, ?_⟩
        simp only [hu, hv, Exec.start, httpError_fresh, StatusBadRequest]
        rfl
      | none =>
        right
        refine ⟨body, perfTest, rfl, hu, hv, ?_⟩
        simp only [hu, hv, Exec.start, List.nil_append]
        cases (provider.SMPSTestConfigStore st req perfTest).2 <;> rfl

/-- C5: when the body parses as a `PerformanceTestConfig` on which
`SMPSPerformanceTestConfigValidator` returns an error, the response is 400
with the message of that error as its body (as `http.Error` writes it,
followed by a newline) and `SMPSTestConfigStore` is not called; whenever the
store is called, the body was read and parsed and the validator accepted the
parsed config, which is the one stored. -/
theorem store_validation (lib : Lib Cfg) (provider : Provider σ Cfg ρ) (req : Request)
    (prefObj : Preference ρ) (st : σ) (out : Exec σ Cfg ρ)
    (hout : out = UserTestPreferenceStore lib provider req (Exec.start prefObj st)) :
    (∀ body perfTest e, req.Body = .ok body → lib.Unmarshal body = .ok perfTest →
      lib.SMPSPerformanceTestConfigValidator perfTest = some e →
      out.w = { status := some 400, body := e ++ "\n" } ∧ out.calls = [] ∧
        out.provider = st) ∧
    (out.calls ≠ [] →
      ∃ body perfTest, req.Body = .ok body ∧ lib.Unmarshal body = .ok perfTest ∧
        lib.SMPSPerformanceTestConfigValidator perfTest = none ∧
        out.calls = [ProviderCall.SMPSTestConfigStore perfTest]) := by
  rcases store_cases lib provider req prefObj st with
    ⟨⟨e0, hb⟩, e⟩ | ⟨body0, hb, ⟨e0, hu⟩, e⟩ | ⟨body0, cfg0, e0, hb, hu, hv, e⟩ |
    ⟨body0, cfg0, hb, hu, hv, e⟩
  · refine ⟨fun body perfTest err hb1 _ _ => ?_, fun hne => ?_⟩
    · rw [hb] at hb1; cases hb1
    · rw [hout, e] at hne; exact absurd rfl hne
  · refine ⟨fun body perfTest err hb1 hu1 _ => ?_, fun hne => ?_⟩
    · rw [hb] at hb1; cases hb1
      rw [hu] at hu1; cases hu1
    · rw [hout, e] at hne; exact absurd rfl hne
  · refine ⟨fun body perfTest err hb1 hu1 hv1 => ?_, fun hne => ?_⟩
    · rw [hb] at hb1; cases hb1
      rw [hu] at hu1; cases hu1
      rw [hv] at hv1; cases hv1
      rw [hout, e]
      exact ⟨rfl, rfl, rfl⟩
    · rw [hout, e] at hne; exact absurd rfl hne
  · refine ⟨fun body perfTest err hb1 hu1 hv1 => ?_, fun _ => ?_⟩
    · rw [hb] at hb1; cases hb1
      rw [hu] at hu1; cases hu1
      rw [hv] at hv1; cases hv1
    · exact ⟨body0, cfg0, hb, hu, hv, by rw [hout, e]⟩

/-- The empty document parses and fails validation: the response is 400 with
the validator's message and nothing is stored. -/
theorem store_validation_witness :
    (UserTestPreferenceStore sampleLib (sampleProvider false)
        (configRequest "POST" "" "\x7b\x7d") (Exec.start emptyPreference [])).w =
      { status := some 400, body := "name field is blank\n" } ∧
    (UserTestPreferenceStore sampleLib (sampleProvider false)
        (configRequest "POST" "" "\x7b\x7d") (Exec.start emptyPreference [])).calls = [] :=
  have h := (store_validation sampleLib (sampleProvider false)
    (configRequest "POST" "" "\x7b\x7d") emptyPreference [] _ rfl).1
    "\x7b\x7d" "\x7b\x7d" "name field is blank" rfl rfl rfl
  ⟨h.1, h.2.1⟩

/-! ## The test-config retrieval handler -/

/-- The loop that wraps the fetched configs builds the list of wrappers in
the order of the configs. -/
theorem wrap_loop (testObj : List (Option Cfg)) (init : List (custTestConf Cfg)) :
    testObj.foldl (fun acc tst => acc ++ [({ Val := tst } : custTestConf Cfg)]) init =
      init ++ testObj.map (fun tst => ({ Val := tst } : custTestConf Cfg)) := by
  induction testObj generalizing init with
  | nil => simp
  | cons tst rest ih => simp [List.foldl_cons, ih, List.append_assoc]

/-- When every config serialises and its bytes compact, the encoding of the
wrapped list succeeds with one element per config, in order. -/
theorem encodeElems_ok (lib : Lib Cfg) (cfgs : List (Option Cfg))
    (hs : ∀ cfg ∈ cfgs, ∃ raw b, lib.MarshalToString cfg = .ok raw ∧ lib.compact raw = .ok b) :
    ∃ elems, encodeElems lib (cfgs.map (fun tst => ({ Val := tst } : custTestConf Cfg))) =
        .ok elems ∧
      List.Forall₂ (fun cfg b => ∃ raw, lib.MarshalToString cfg = .ok raw ∧
        lib.compact raw = .ok b) cfgs elems := by
  induction cfgs with
  | nil => exact ⟨[], rfl, List.Forall₂.nil⟩
  | cons cfg rest ih =>
    obtain ⟨raw, b, h1, h2⟩ := hs cfg (List.mem_cons_self _ _)
    obtain ⟨bs, hbs, hall⟩ := ih (fun c hc => hs c (List.mem_cons_of_mem _ hc))
    refine ⟨b :: bs, ?_, List.Forall₂.cons ⟨raw, h1, h2⟩ hall⟩
    simp [encodeElems, marshalerEncoder, custTestConf.MarshalJSON, h1, h2, hbs]

/-- The text of a JSON array is not the text of the serialisation error. -/
theorem jsonArray_ne_error (elems : List String) :
    "error reading database\n" ≠ jsonArray elems := by
  intro h
  have hd := congrArg String.data h
  simp [jsonArray, String.data_append] at hd

/-- C6 as stated fails: the provider returns, without error, a list of one
entry whose serialisation fails (a nil entry, which `jsonpb` refuses), and the
response is 500 with the body `error reading database`, which is not a JSON
array. -/
theorem get_all_counterexample :
    (nilEntryProvider.SMPSTestConfigFetchAll () (configRequest "GET" "" "")).2 = .ok [none] ∧
    (UserTestPreferenceGet sampleLib nilEntryProvider (configRequest "GET" "" "")
        (Exec.start emptyPreference ())).w =
      { status := some 500, body := "error reading database\n" } ∧
    ∀ elems, (UserTestPreferenceGet sampleLib nilEntryProvider (configRequest "GET" "" "")
        (Exec.start emptyPreference ())).w.body ≠ jsonArray elems :=
  ⟨rfl, rfl, fun elems => jsonArray_ne_error elems⟩

/-- C6, amended: without a `uuid` query parameter, when `SMPSTestConfigFetchAll`
returns a list of configs without error and every config of the list
serialises (its default-emitting serialisation and the compaction of its
bytes succeed), the response is 200 and its body is a JSON array with one
element per config, the i-th element being the compacted default-emitting
serialisation of the i-th config; for the empty list the body is `[]`. -/
theorem get_all_array (lib : Lib Cfg) (provider : Provider σ Cfg ρ) (req : Request)
    (prefObj : Preference ρ) (st : σ) (out : Exec σ Cfg ρ) (cfgs : List (Option Cfg))
    (hout : out = UserTestPreferenceGet lib provider req (Exec.start prefObj st))
    (hu : req.QueryGet "uuid" = "")
    (hf : (provider.SMPSTestConfigFetchAll st req).2 = .ok cfgs)
    (hs : ∀ cfg ∈ cfgs, ∃ raw b, lib.MarshalToString cfg = .ok raw ∧ lib.compact raw = .ok b) :
    ∃ elems, out.w = { status := some 200, body := jsonArray elems } ∧
      elems.length = cfgs.length ∧
      List.Forall₂ (fun cfg b => ∃ raw, lib.MarshalToString cfg = .ok raw ∧
        lib.compact raw = .ok b) cfgs elems ∧
      (cfgs = [] → out.w.body = "[]") := by
  obtain ⟨elems, hel, hall⟩ := encodeElems_ok lib cfgs hs
  have hw : out.w = { status := some 200, body := jsonArray elems } := by
    rw [hout]
    unfold UserTestPreferenceGet
    simp only [hu, if_true, Exec.start, hf, wrap_loop, List.nil_append, jsonMarshal, hel,
      write_fresh]
  refine ⟨elems, hw, hall.length_eq.symm, hall, fun hnil => ?_⟩
  subst hnil
  cases hall
  rw [hw]
  rfl

/-- Two stored configs come back as an array of their two serialisations. -/
theorem get_all_array_witness :
    ∃ elems, (UserTestPreferenceGet sampleLib (sampleProvider false) (configRequest "GET" "" "")
        (Exec.start emptyPreference ["\"a\"", "\"b\""])).w =
        { status := some 200, body := jsonArray elems } ∧
      elems.length = 2 ∧
      List.Forall₂ (fun cfg b => ∃ raw, sampleLib.MarshalToString cfg = .ok raw ∧
        sampleLib.compact raw = .ok b) [some "\"a\"", some "\"b\""] elems ∧
      (([some "\"a\"", some "\"b\""] : List (Option String)) = [] →
        (UserTestPreferenceGet sampleLib (sampleProvider false) (configRequest "GET" "" "")
          (Exec.start emptyPreference ["\"a\"", "\"b\""])).w.body = "[]") :=
  get_all_array sampleLib (sampleProvider false) (configRequest "GET" "" "") emptyPreference
    ["\"a\"", "\"b\""] _ [some "\"a\"", some "\"b\""] rfl rfl rfl
    (fun cfg h => by
      rcases List.mem_cons.1 h with rfl | h
      · exact ⟨_, _, rfl, rfl⟩
      · rcases List.mem_cons.1 h with rfl | h
        · exact ⟨_, _, rfl, rfl⟩
        · cases h)

/-- C7: with a non-empty `uuid` the only provider call is
`SMPSTestConfigFetch` with that uuid, `SMPSTestConfigFetchAll` not being
called, and when the fetch returns no error and no config the response is 404
with an empty body. -/
theorem get_one_notFound (lib : Lib Cfg) (provider : Provider σ Cfg ρ) (req : Request)
    (prefObj : Preference ρ) (st : σ) (out : Exec σ Cfg ρ)
    (hout : out = UserTestPreferenceGet lib provider req (Exec.start prefObj st))
    (hu : req.QueryGet "uuid" ≠ "") :
    out.calls = [ProviderCall.SMPSTestConfigFetch (req.QueryGet "uuid")] ∧
    ProviderCall.SMPSTestConfigFetchAll ∉ out.calls ∧
    ((provider.SMPSTestConfigFetch st req (req.QueryGet "uuid")).2 = .ok none →
      out.w = { status := some 404, body := "" }) := by
  have hcalls : out.calls = [ProviderCall.SMPSTestConfigFetch (req.QueryGet "uuid")] := by
    rw [hout]
    unfold UserTestPreferenceGet
    simp only [hu, if_false, Exec.start, List.nil_append]
    cases (provider.SMPSTestConfigFetch st req (req.QueryGet "uuid")).2 with
    | error e => rfl
    | ok r =>
      cases r with
      | none => rfl
      | some testObj =>
        dsimp only
        cases (lib.Marshal testObj).2 <;> rfl
  refine ⟨hcalls, ?_, fun hf => ?_⟩
  · rw [hcalls]
    simp
  · rw [hout]
    unfold UserTestPreferenceGet
    simp only [hu, if_false, Exec.start, hf, writeHeader_fresh, StatusNotFound]

/-- Fetching a uuid nothing is stored under is answered 404 with an empty
body. -/
theorem get_one_notFound_witness :
    (UserTestPreferenceGet sampleLib (sampleProvider false) (configRequest "GET" "id:x" "")
        (Exec.start emptyPreference ["\"a\""])).w = { status := some 404, body := "" } :=
  (get_one_notFound sampleLib (sampleProvider false) (configRequest "GET" "id:x" "")
    emptyPreference ["\"a\""] _ rfl (by decide)).2.2 rfl

/-! ## The test-config deletion handler -/

/-- C9: without a `uuid` query parameter, or with an empty one, the response
is 400 with the message `field uuid not found` and `SMPSTestConfigDelete` is
not called, the provider staying as it was; otherwise the handler calls
`SMPSTestConfigDelete` exactly once, with that uuid, which leaves the provider
in the state that call produced, and the handler writes nothing, so the client
receives 200 with an empty body whatever the provider's delete returns. -/
theorem delete_contract (provider : Provider σ Cfg ρ) (req : Request)
    (prefObj : Preference ρ) (st : σ) (out : Exec σ Cfg ρ)
    (hout : out = UserTestPreferenceDelete provider req (Exec.start prefObj st)) :
    (req.QueryGet "uuid" = "" → out = Spec.rejected prefObj st "field uuid not found") ∧
    (req.QueryGet "uuid" ≠ "" →
      out.calls = [ProviderCall.SMPSTestConfigDelete (req.QueryGet "uuid")] ∧
      out.provider = (provider.SMPSTestConfigDelete st req (req.QueryGet "uuid")).1 ∧
      out.prefObj = prefObj ∧
      out.w = ResponseWriter.fresh ∧ out.w.finalStatus = 200 ∧ out.w.body = "") := by
  constructor
  · intro hu
    rw [hout]
    unfold UserTestPreferenceDelete
    simp only [hu, if_true]
    exact start_rejected prefObj st _
  · intro hu
    rw [hout]
    unfold UserTestPreferenceDelete
    simp only [hu, if_false, Exec.start, List.nil_append]
    refine ⟨?_, ?_, ?_, ?_, ?_, ?_⟩ <;> first | rfl | trivial

/-- Deleting the uuid of the one stored config calls the provider once and
leaves its store empty, the response untouched; with a provider whose delete
fails the store keeps the config and the response is the same. -/
theorem delete_contract_witness :
    ((UserTestPreferenceDelete (sampleProvider false) (configRequest "DELETE" "id:a" "")
        (Exec.start emptyPreference ["a"])).calls =
      [ProviderCall.SMPSTestConfigDelete "id:a"] ∧
    (UserTestPreferenceDelete (sampleProvider false) (configRequest "DELETE" "id:a" "")
        (Exec.start emptyPreference ["a"])).provider = [] ∧
    (UserTestPreferenceDelete (sampleProvider false) (configRequest "DELETE" "id:a" "")
        (Exec.start emptyPreference ["a"])).w = ResponseWriter.fresh) ∧
    ((UserTestPreferenceDelete (sampleProvider true) (configRequest "DELETE" "id:a" "")
        (Exec.start emptyPreference ["a"])).provider = ["a"] ∧
    (UserTestPreferenceDelete (sampleProvider true) (configRequest "DELETE" "id:a" "")
        (Exec.start emptyPreference ["a"])).w = ResponseWriter.fresh) :=
  have h := (delete_contract (sampleProvider false) (configRequest "DELETE" "id:a" "")
    emptyPreference ["a"] _ rfl).2 (by decide)
  have hf := (delete_contract (sampleProvider true) (configRequest "DELETE" "id:a" "")
    emptyPreference ["a"] _ rfl).2 (by decide)
  ⟨⟨h.1, h.2.1, h.2.2.2.1⟩, ⟨hf.2.1, hf.2.2.2.1⟩⟩

end Handlers
